import Mathlib

/-!
Verification of the `blockchain` error taxonomy and of the spec-modelled
block-processing pipeline of the prova-1 repository.

The first half of this file is a shallow embedding of
`src/blockchain/error.go` (the `ErrorCode` enumeration, the
`errorCodeStrings` name table, `ErrorCode.String`, `RuleError`,
`ruleError` and `AssertError`).  The second half models, from the spec,
the parts of the engine (orphan handling, checkpoints, reorganization,
connect/disconnect of a block) whose Go sources are not part of this
repository snapshot.
-/

namespace blockchain

/-- `AssertError` from error.go: `type AssertError string`, an error that
indicates an internal code consistency issue. -/
abbrev AssertError := String

/-- `func (e AssertError) Error() string` from error.go. -/
def AssertError.Error (e : AssertError) : String :=
  "assertion failed: " ++ e

/-- `ErrorCode` from error.go: `type ErrorCode int`, identifies a kind of
error. -/
structure ErrorCode where
  code : Int
deriving DecidableEq

/- The 47 `ErrorCode` constants of error.go, declared with `iota`
(consecutive integers starting at 0). -/

def ErrDuplicateBlock : ErrorCode := ⟨0⟩
def ErrBlockTooBig : ErrorCode := ⟨1⟩
def ErrBlockVersionTooOld : ErrorCode := ⟨2⟩
def ErrInvalidTime : ErrorCode := ⟨3⟩
def ErrTimeTooOld : ErrorCode := ⟨4⟩
def ErrTimeTooNew : ErrorCode := ⟨5⟩
def ErrDifficultyTooLow : ErrorCode := ⟨6⟩
def ErrUnexpectedDifficulty : ErrorCode := ⟨7⟩
def ErrBadHeight : ErrorCode := ⟨8⟩
def ErrBadBlockSignature : ErrorCode := ⟨9⟩
def ErrHighHash : ErrorCode := ⟨10⟩
def ErrBadMerkleRoot : ErrorCode := ⟨11⟩
def ErrBadCheckpoint : ErrorCode := ⟨12⟩
def ErrForkTooOld : ErrorCode := ⟨13⟩
def ErrCheckpointTimeTooOld : ErrorCode := ⟨14⟩
def ErrNoTransactions : ErrorCode := ⟨15⟩
def ErrTooManyTransactions : ErrorCode := ⟨16⟩
def ErrNoTxInputs : ErrorCode := ⟨17⟩
def ErrNoTxOutputs : ErrorCode := ⟨18⟩
def ErrTxTooBig : ErrorCode := ⟨19⟩
def ErrBadTxOutValue : ErrorCode := ⟨20⟩
def ErrDuplicateTxInputs : ErrorCode := ⟨21⟩
def ErrBadTxInput : ErrorCode := ⟨22⟩
def ErrMissingTx : ErrorCode := ⟨23⟩
def ErrUnfinalizedTx : ErrorCode := ⟨24⟩
def ErrDuplicateTx : ErrorCode := ⟨25⟩
def ErrOverwriteTx : ErrorCode := ⟨26⟩
def ErrImmatureSpend : ErrorCode := ⟨27⟩
def ErrDoubleSpend : ErrorCode := ⟨28⟩
def ErrSpendTooHigh : ErrorCode := ⟨29⟩
def ErrBadFees : ErrorCode := ⟨30⟩
def ErrTooManySigOps : ErrorCode := ⟨31⟩
def ErrFirstTxNotCoinbase : ErrorCode := ⟨32⟩
def ErrMultipleCoinbases : ErrorCode := ⟨33⟩
def ErrBadCoinbaseScriptLen : ErrorCode := ⟨34⟩
def ErrBadCoinbaseValue : ErrorCode := ⟨35⟩
def ErrScriptMalformed : ErrorCode := ⟨36⟩
def ErrScriptValidation : ErrorCode := ⟨37⟩
def ErrExcessiveChainShare : ErrorCode := ⟨38⟩
def ErrExcessiveTrailing : ErrorCode := ⟨39⟩
def ErrInconsistentBlkSize : ErrorCode := ⟨40⟩
def ErrInvalidCoinbase : ErrorCode := ⟨41⟩
def ErrInvalidTx : ErrorCode := ⟨42⟩
def ErrInvalidValidateKey : ErrorCode := ⟨43⟩
def ErrInvalidAdminTx : ErrorCode := ⟨44⟩
def ErrInvalidAdminOp : ErrorCode := ⟨45⟩
def ErrFeeTooHigh : ErrorCode := ⟨46⟩

/-- The list of all 47 `ErrorCode` constants defined in error.go, in
declaration (`iota`) order. -/
def definedErrorCodes : List ErrorCode :=
  [ErrDuplicateBlock, ErrBlockTooBig, ErrBlockVersionTooOld, ErrInvalidTime,
   ErrTimeTooOld, ErrTimeTooNew, ErrDifficultyTooLow, ErrUnexpectedDifficulty,
   ErrBadHeight, ErrBadBlockSignature, ErrHighHash, ErrBadMerkleRoot,
   ErrBadCheckpoint, ErrForkTooOld, ErrCheckpointTimeTooOld,
   ErrNoTransactions, ErrTooManyTransactions, ErrNoTxInputs, ErrNoTxOutputs,
   ErrTxTooBig, ErrBadTxOutValue, ErrDuplicateTxInputs, ErrBadTxInput,
   ErrMissingTx, ErrUnfinalizedTx, ErrDuplicateTx, ErrOverwriteTx,
   ErrImmatureSpend, ErrDoubleSpend, ErrSpendTooHigh, ErrBadFees,
   ErrTooManySigOps, ErrFirstTxNotCoinbase, ErrMultipleCoinbases,
   ErrBadCoinbaseScriptLen, ErrBadCoinbaseValue, ErrScriptMalformed,
   ErrScriptValidation, ErrExcessiveChainShare, ErrExcessiveTrailing,
   ErrInconsistentBlkSize, ErrInvalidCoinbase, ErrInvalidTx,
   ErrInvalidValidateKey, ErrInvalidAdminTx, ErrInvalidAdminOp,
   ErrFeeTooHigh]

/-- The `errorCodeStrings` map of error.go, as an association list: map of
`ErrorCode` values back to their constant names for pretty printing. -/
def errorCodeStringsList : List (ErrorCode × String) :=
  [(ErrDuplicateBlock, "ErrDuplicateBlock"),
   (ErrBlockTooBig, "ErrBlockTooBig"),
   (ErrBlockVersionTooOld, "ErrBlockVersionTooOld"),
   (ErrInvalidTime, "ErrInvalidTime"),
   (ErrTimeTooOld, "ErrTimeTooOld"),
   (ErrTimeTooNew, "ErrTimeTooNew"),
   (ErrDifficultyTooLow, "ErrDifficultyTooLow"),
   (ErrUnexpectedDifficulty, "ErrUnexpectedDifficulty"),
   (ErrBadHeight, "ErrBadHeight"),
   (ErrBadBlockSignature, "ErrBadBlockSignature"),
   (ErrHighHash, "ErrHighHash"),
   (ErrBadMerkleRoot, "ErrBadMerkleRoot"),
   (ErrBadCheckpoint, "ErrBadCheckpoint"),
   (ErrForkTooOld, "ErrForkTooOld"),
   (ErrCheckpointTimeTooOld, "ErrCheckpointTimeTooOld"),
   (ErrNoTransactions, "ErrNoTransactions"),
   (ErrTooManyTransactions, "ErrTooManyTransactions"),
   (ErrNoTxInputs, "ErrNoTxInputs"),
   (ErrNoTxOutputs, "ErrNoTxOutputs"),
   (ErrTxTooBig, "ErrTxTooBig"),
   (ErrBadTxOutValue, "ErrBadTxOutValue"),
   (ErrDuplicateTxInputs, "ErrDuplicateTxInputs"),
   (ErrBadTxInput, "ErrBadTxInput"),
   (ErrMissingTx, "ErrMissingTx"),
   (ErrUnfinalizedTx, "ErrUnfinalizedTx"),
   (ErrDuplicateTx, "ErrDuplicateTx"),
   (ErrOverwriteTx, "ErrOverwriteTx"),
   (ErrImmatureSpend, "ErrImmatureSpend"),
   (ErrDoubleSpend, "ErrDoubleSpend"),
   (ErrSpendTooHigh, "ErrSpendTooHigh"),
   (ErrBadFees, "ErrBadFees"),
   (ErrTooManySigOps, "ErrTooManySigOps"),
   (ErrFirstTxNotCoinbase, "ErrFirstTxNotCoinbase"),
   (ErrMultipleCoinbases, "ErrMultipleCoinbases"),
   (ErrBadCoinbaseScriptLen, "ErrBadCoinbaseScriptLen"),
   (ErrBadCoinbaseValue, "ErrBadCoinbaseValue"),
   (ErrScriptMalformed, "ErrScriptMalformed"),
   (ErrScriptValidation, "ErrScriptValidation"),
   (ErrExcessiveChainShare, "ErrExcessiveChainShare"),
   (ErrExcessiveTrailing, "ErrExcessiveTrailing"),
   (ErrInconsistentBlkSize, "ErrInconsistentBlkSize"),
   (ErrInvalidCoinbase, "ErrInvalidCoinbase"),
   (ErrInvalidTx, "ErrInvalidTx"),
   (ErrInvalidValidateKey, "ErrInvalidValidateKey"),
   (ErrInvalidAdminTx, "ErrInvalidAdminTx"),
   (ErrInvalidAdminOp, "ErrInvalidAdminOp"),
   (ErrFeeTooHigh, "ErrFeeTooHigh")]

/-- Indexing the Go map `errorCodeStrings[e]`: a missing key yields the
zero value `""`. -/
def errorCodeStrings (e : ErrorCode) : String :=
  (errorCodeStringsList.lookup e).getD ""

/-- `func (e ErrorCode) String() string` from error.go: returns the table
entry when it is non-empty, and `"Unknown ErrorCode (%d)"` otherwise. -/
def ErrorCode.String (e : ErrorCode) : String :=
  let s := errorCodeStrings e
  if s ≠ "" then s
  else "Unknown ErrorCode (" ++ toString e.code ++ ")"

/-- `RuleError` from error.go: identifies a rule violation; the caller can
use type assertions to determine whether a failure was due to a rule
violation and access the `ErrorCode` field. -/
structure RuleError where
  ErrorCode : ErrorCode
  Description : String
deriving DecidableEq

/-- `func (e RuleError) Error() string` from error.go. -/
def RuleError.Error (e : RuleError) : String :=
  e.Description

/-- `func ruleError(c ErrorCode, desc string) RuleError` from error.go. -/
def ruleError (c : ErrorCode) (desc : String) : RuleError :=
  ⟨c, desc⟩

/-- The dynamic `error` interface values the `blockchain` package returns:
either a `RuleError` or an `AssertError`.  A Go type assertion
`err.(RuleError)` corresponds to matching on the constructor. -/
inductive GoError where
  | ruleErr (e : RuleError)
  | assertErr (e : AssertError)
deriving DecidableEq

/-- The Go type assertion `err.(blockchain.RuleError)`: succeeds exactly on
`RuleError` values. -/
def GoError.asRuleError : GoError → Option RuleError
  | .ruleErr e => some e
  | .assertErr _ => none

/-- The error kinds named in the spec's taxonomy list (section 4.1), each
mapped to the `ErrorCode` constant(s) of error.go that realize it; kinds
written with a slash name two constants and both are listed. -/
def specTaxonomyCodes : List ErrorCode :=
  [ErrDuplicateBlock,        -- duplicate block
   ErrBlockTooBig,           -- oversize block
   ErrBlockVersionTooOld,    -- stale version
   ErrInvalidTime,           -- bad timestamp
   ErrUnexpectedDifficulty,  -- difficulty mismatch
   ErrBadHeight,             -- bad height
   ErrBadBlockSignature,     -- bad signature
   ErrHighHash,              -- high-hash/target violation
   ErrBadMerkleRoot,         -- bad merkle root
   ErrBadCheckpoint,         -- checkpoint mismatch
   ErrForkTooOld,            -- fork-too-old
   ErrNoTransactions,        -- empty transaction set
   ErrTooManyTransactions,   -- oversize transaction set
   ErrNoTxInputs,            -- missing inputs
   ErrDuplicateTxInputs,     -- duplicate inputs
   ErrTxTooBig,              -- oversize transaction
   ErrBadTxOutValue,         -- bad output value
   ErrDuplicateTx,           -- duplicate transaction
   ErrOverwriteTx,           -- overwritten transaction
   ErrImmatureSpend,         -- immature spend
   ErrDoubleSpend,           -- double spend
   ErrSpendTooHigh,          -- overspend
   ErrBadFees,               -- bad fees
   ErrTooManySigOps,         -- excessive signature operations
   ErrInvalidCoinbase,       -- malformed coinbase
   ErrScriptMalformed,       -- malformed script
   ErrScriptValidation,      -- failing script
   ErrExcessiveChainShare,   -- excessive chain share
   ErrExcessiveTrailing,     -- excessive run length
   ErrInconsistentBlkSize,   -- inconsistent size
   ErrInvalidAdminTx,        -- invalid admin transaction
   ErrInvalidAdminOp,        -- invalid admin operation
   ErrInvalidValidateKey,    -- invalid validating key
   ErrFeeTooHigh]            -- excessive fee

/-- Modelled from the spec: a human-readable description attached to a
rejection carrying the violated rule's code (the Go sources building these
descriptions are not part of this repository snapshot). -/
def rejectDescription (c : ErrorCode) : String :=
  "block rejected: " ++ ErrorCode.String c

/-- Modelled from the spec (section 3): a candidate block as the engine
sees it — its hash, the hash of its parent, and the (abstracted) outcome of
structural/context-free validation and of context-dependent validation.
The validators themselves are not part of this repository snapshot, so a
block carries the rule it violates, if any, as data. -/
structure Block where
  hash : Nat
  prevHash : Nat
  structuralViolation : Option ErrorCode
  contextViolation : Option ErrorCode
deriving DecidableEq

/-- Modelled from the spec (sections 2 and 4.5): the engine state visible
to `ProcessBlock` — the set of accepted chain nodes (by hash) and the
pending-orphan pool. -/
structure Engine where
  known : List Nat
  orphans : List Block
deriving DecidableEq

/-- Modelled from the spec (section 4.5, orphan handling): after a block is
accepted, the engine scans the orphan pool for blocks whose parent is now
known and processes them recursively in the same pipeline — promoting the
valid ones into chain nodes and discarding the invalid ones.  The fuel
argument bounds the recursion by the size of the pool. -/
def processOrphans (fuel : Nat) (known : List Nat) (orphans : List Block) :
    List Nat × List Block :=
  match fuel with
  | 0 => (known, orphans)
  | Nat.succ fuel =>
    match orphans.find? (fun o => known.contains o.prevHash) with
    | none => (known, orphans)
    | some o =>
      match o.contextViolation with
      | none => processOrphans fuel (o.hash :: known) (orphans.erase o)
      | some _ => processOrphans fuel known (orphans.erase o)

/-- Modelled from the spec (sections 2, 4.5, 6 and 7): the `ProcessBlock`
entry point, whose Go source is not part of this repository snapshot.  A
duplicate or rule-violating block is rejected with the specific
`RuleError`; a structurally valid block whose parent is unknown is placed
in the orphan pool and reported with `isOrphan = true` and no error; an
accepted block extends the chain and triggers orphan processing.  The
result is `(engine, isMainChain, isOrphan, error)`. -/
def processBlock (e : Engine) (b : Block) :
    Engine × Bool × Bool × Option GoError :=
  if e.known.contains b.hash then
    (e, false, false,
     some (GoError.ruleErr
       (ruleError ErrDuplicateBlock (rejectDescription ErrDuplicateBlock))))
  else
    match b.structuralViolation with
    | some c =>
      (e, false, false, some (GoError.ruleErr (ruleError c (rejectDescription c))))
    | none =>
      if e.known.contains b.prevHash then
        match b.contextViolation with
        | some c =>
          (e, false, false, some (GoError.ruleErr (ruleError c (rejectDescription c))))
        | none =>
          let r := processOrphans e.orphans.length (b.hash :: e.known) e.orphans
          (⟨r.1, r.2⟩, true, false, none)
      else
        (⟨e.known, b :: e.orphans⟩, false, true, none)

/-- Modelled from the spec: the rule, if any, that `processBlock` finds
violated for a block presented to the engine in a given state, mirroring
the order of the checks of the pipeline (duplicate, then structural, then
contextual once the ancestry is known). -/
def violatedRule (e : Engine) (b : Block) : Option ErrorCode :=
  if e.known.contains b.hash then some ErrDuplicateBlock
  else
    match b.structuralViolation with
    | some c => some c
    | none =>
      if e.known.contains b.prevHash then b.contextViolation
      else none

/-- Modelled from the spec (sections 4.3 and 6): the checkpoint
configuration, an ordered sequence of (height, hash) pairs. -/
def latestCheckpointHeight (cps : List (Nat × Nat)) : Option Nat :=
  (cps.map Prod.fst).max?

/-- Modelled from the spec (section 4.3): checkpoint conformance for a
candidate block, evaluated before and independently of every other rule.
If a checkpoint exists at this height the block hash must match it exactly
(otherwise checkpoint mismatch); a fork that diverges at or before the
most recent checkpoint is rejected as too-old; only then does the outcome
of the remaining context rules (and the cumulative-work comparison, which
never overrides a checkpoint) matter. -/
def validateWithCheckpoints (cps : List (Nat × Nat)) (height hash forkHeight : Nat)
    (otherViolation : Option ErrorCode) (_hasGreaterWork : Bool) :
    Option ErrorCode :=
  match cps.lookup height with
  | some cph =>
    if hash ≠ cph then some ErrBadCheckpoint
    else
      match latestCheckpointHeight cps with
      | some l => if forkHeight ≤ l then some ErrForkTooOld else otherViolation
      | none => otherViolation
  | none =>
    match latestCheckpointHeight cps with
    | some l => if forkHeight ≤ l then some ErrForkTooOld else otherViolation
    | none => otherViolation

/-- Modelled from the spec (section 3): the governance roles of the admin
key machine. -/
inductive KeyRole where
  | issuing
  | provisioning
  | validating
deriving DecidableEq

/-- Modelled from the spec (sections 3 and 4.4): per role, the set of
authorized public identities (identities abstracted to naturals). -/
structure AdminKeySet where
  issuing : List Nat
  provisioning : List Nat
  validating : List Nat
deriving DecidableEq

/-- Modelled from the spec (section 4.4): an admin operation adds or
removes exactly one identity from exactly one role's set. -/
inductive AdminOpKind where
  | addKey
  | revokeKey
deriving DecidableEq

/-- Modelled from the spec (section 4.4): one admin operation. -/
structure AdminOp where
  kind : AdminOpKind
  role : KeyRole
  key : Nat
deriving DecidableEq

/-- Apply a function to the identity set of one role. -/
def applyToRole (s : AdminKeySet) (r : KeyRole) (f : List Nat → List Nat) :
    AdminKeySet :=
  match r with
  | .issuing => ⟨f s.issuing, s.provisioning, s.validating⟩
  | .provisioning => ⟨s.issuing, f s.provisioning, s.validating⟩
  | .validating => ⟨s.issuing, s.provisioning, f s.validating⟩

/-- Modelled from the spec (section 4.4): applying one authorized admin
operation to an admin key set. -/
def applyAdminOp (s : AdminKeySet) (op : AdminOp) : AdminKeySet :=
  match op.kind with
  | .addKey => applyToRole s op.role (fun ks => if ks.contains op.key then ks else op.key :: ks)
  | .revokeKey => applyToRole s op.role (fun ks => ks.filter (fun k => k != op.key))

/-- Modelled from the spec (section 4.4): admin operations are processed in
order within a block. -/
def applyAdminOps (s : AdminKeySet) (ops : List AdminOp) : AdminKeySet :=
  ops.foldl applyAdminOp s

/-- Modelled from the spec (section 3): one UTXO-set entry — an amount plus
spendability/maturity metadata. -/
structure UtxoEntry where
  amount : Int
  isCoinbase : Bool
  height : Nat
deriving DecidableEq

/-- Modelled from the spec (sections 3, 4.4 and 4.5): the data of a block
relevant to connecting and disconnecting it — the entries its transactions
spend (with their pre-spend values, the undo data), the entries its
transactions create, its admin operations, and the admin-key-set snapshot
of its parent node (snapshots are immutable values, so disconnecting swaps
the reference back to the parent's snapshot). -/
structure BlockData where
  hash : Nat
  contextViolation : Option ErrorCode
  spent : List (Nat × UtxoEntry)
  created : List (Nat × UtxoEntry)
  adminOps : List AdminOp
  prevAdmin : AdminKeySet
deriving DecidableEq

/-- Modelled from the spec (section 3): the live chain view used for the
connect/disconnect round-trip — the UTXO set as a mapping from outpoint to
entry, and the admin-key-set snapshot at the tip. -/
structure ChainView where
  utxo : Nat → Option UtxoEntry
  adminKeys : AdminKeySet

/-- Modelled from the spec (sections 3 and 4.5): connecting a block —
entries are removed when spent, created entries are added, and the admin
operations are applied to the snapshot. -/
def connectBlockView (v : ChainView) (b : BlockData) : ChainView :=
  ⟨fun op =>
    match b.created.lookup op with
    | some entry => some entry
    | none =>
      match b.spent.lookup op with
      | some _ => none
      | none => v.utxo op,
   applyAdminOps v.adminKeys b.adminOps⟩

/-- Modelled from the spec (sections 3, 4.4 and 4.5): disconnecting a block
during a reorg rollback — created entries are removed, spent entries are
restored from the undo data, and the admin snapshot reverts to the parent's
by a reference swap. -/
def disconnectBlockView (v : ChainView) (b : BlockData) : ChainView :=
  ⟨fun op =>
    match b.created.lookup op with
    | some _ => none
    | none =>
      match b.spent.lookup op with
      | some entry => some entry
      | none => v.utxo op,
   b.prevAdmin⟩

/-- Modelled from the spec (sections 3 and 5): the chain-state store as the
reorganization engine sees it — the UTXO set (as an association list), the
chain-node index, and the admin-key snapshot at the tip. -/
structure ChainState where
  utxo : List (Nat × UtxoEntry)
  nodeIndex : List Nat
  adminKeys : AdminKeySet
deriving DecidableEq

/-- Remove the entries of the given outpoints from an association-list
UTXO set. -/
def removeKeys (m : List (Nat × UtxoEntry)) (ks : List Nat) :
    List (Nat × UtxoEntry) :=
  m.filter (fun p => !(ks.contains p.1))

/-- Modelled from the spec (section 4.5): connecting a block to the
chain-state store — apply its transactions to the UTXO set, apply its
admin operations, extend the node index. -/
def connectState (st : ChainState) (b : BlockData) : ChainState :=
  ⟨b.created ++ removeKeys st.utxo (b.spent.map Prod.fst),
   b.hash :: st.nodeIndex,
   applyAdminOps st.adminKeys b.adminOps⟩

/-- Modelled from the spec (section 4.5): disconnecting a block from the
chain-state store — revert its UTXO changes in reverse (restore spent
entries, drop created ones), drop it from the node index, and swap the
admin snapshot back to the parent's. -/
def disconnectState (st : ChainState) (b : BlockData) : ChainState :=
  ⟨b.spent ++ removeKeys st.utxo (b.created.map Prod.fst),
   st.nodeIndex.filter (fun h => h != b.hash),
   b.prevAdmin⟩

/-- Modelled from the spec (section 4.3): context validation of one block
against the state it extends — its referenced inputs must exist unspent in
that state's UTXO set, and the remaining context rules are abstracted into
the block's carried violation. -/
def validateInState (st : ChainState) (b : BlockData) : Option ErrorCode :=
  if b.spent.all (fun p => st.utxo.lookup p.1 == some p.2) then b.contextViolation
  else some ErrMissingTx

/-- Modelled from the spec (section 4.5): re-running context-dependent
validation per block along the candidate path, threading the state, and
returning the first violation. -/
def validatePath (st : ChainState) (path : List BlockData) : Option ErrorCode :=
  match path with
  | [] => none
  | b :: rest =>
    match validateInState st b with
    | some c => some c
    | none => validatePath (connectState st b) rest

/-- Modelled from the spec (sections 4.5 and 7): a reorganization attempt.
The full candidate path is validated (against the state obtained by
disconnecting back to the common ancestor) before any mutation is
committed; if any block along the new path fails, the attempt is aborted,
the store is left exactly as it was, and the triggering block is rejected
(not treated as an orphan).  The result is
`(state, isMainChain, isOrphan, error)`. -/
def reorganize (st : ChainState) (detach attach : List BlockData) :
    ChainState × Bool × Bool × Option GoError :=
  let base := detach.foldl disconnectState st
  match validatePath base attach with
  | some c =>
    (st, false, false, some (GoError.ruleErr (ruleError c (rejectDescription c))))
  | none => (attach.foldl connectState base, true, false, none)

/-- A concrete chain view used to exercise the connect/disconnect
round-trip on explicit inputs. -/
def sampleView : ChainView :=
  ⟨fun n =>
    if n = 1 then some ⟨5, false, 0⟩
    else if n = 3 then some ⟨7, true, 2⟩
    else none,
   ⟨[9], [], []⟩⟩

/-- A concrete block, connected in `sampleView`: its created entries are
present there, the entry it spent is absent, and the admin snapshot of the
view results from its admin operations. -/
def sampleBlockData : BlockData :=
  ⟨4, none,
   [(2, ⟨4, false, 0⟩)],
   [(1, ⟨5, false, 0⟩), (3, ⟨7, true, 2⟩)],
   [⟨AdminOpKind.addKey, KeyRole.issuing, 9⟩],
   ⟨[], [], []⟩⟩

end blockchain

namespace blockchain

/-- C2: every `RuleError` pairs exactly one `ErrorCode` with exactly one
description string: `ruleError c desc` yields the value whose `ErrorCode`
field is `c` and whose `Description` field is `desc` (values of the
embedding are immutable by construction), and `Error` on any `RuleError`
returns exactly its `Description`. -/
theorem ruleError_pairs_code_and_description :
    (∀ (c : ErrorCode) (desc : String),
      (ruleError c desc).ErrorCode = c ∧ (ruleError c desc).Description = desc) ∧
    (∀ e : RuleError, RuleError.Error e = e.Description) :=
  ⟨fun _ _ => ⟨rfl, rfl⟩, fun _ => rfl⟩

/-- C3: the `ErrorCode` enumeration contains a distinct constant for every
error kind named in the spec's taxonomy list: the constants realizing the
listed kinds are pairwise distinct and all belong to the closed set of
defined constants. -/
theorem specTaxonomy_distinct_and_closed :
    specTaxonomyCodes.Nodup ∧ ∀ c ∈ specTaxonomyCodes, c ∈ definedErrorCodes := by
  constructor
  · decide
  · have hall : specTaxonomyCodes.all
        (fun c => decide (c ∈ definedErrorCodes)) = true := by decide
    intro c hc
    exact of_decide_eq_true (List.all_eq_true.mp hall c hc)

/-- C3 witness: the taxonomy pair (checkpoint mismatch, fork-too-old) is
realized by constants of the closed set. -/
theorem specTaxonomy_distinct_and_closed_witness :
    ErrBadCheckpoint ∈ definedErrorCodes :=
  specTaxonomy_distinct_and_closed.2 ErrBadCheckpoint (by decide)

/-- C4: `ErrorCode.String` returns the constant's name for each of the 47
defined constants, from `ErrDuplicateBlock` through `ErrFeeTooHigh`, and
for every `ErrorCode` with no entry in the name table it returns
`"Unknown ErrorCode (d)"` where `d` is the value's integer representation,
so it is total over all integers. -/
theorem errorCode_String_names :
    definedErrorCodes.map ErrorCode.String =
      ["ErrDuplicateBlock", "ErrBlockTooBig", "ErrBlockVersionTooOld",
       "ErrInvalidTime", "ErrTimeTooOld", "ErrTimeTooNew",
       "ErrDifficultyTooLow", "ErrUnexpectedDifficulty", "ErrBadHeight",
       "ErrBadBlockSignature", "ErrHighHash", "ErrBadMerkleRoot",
       "ErrBadCheckpoint", "ErrForkTooOld", "ErrCheckpointTimeTooOld",
       "ErrNoTransactions", "ErrTooManyTransactions", "ErrNoTxInputs",
       "ErrNoTxOutputs", "ErrTxTooBig", "ErrBadTxOutValue",
       "ErrDuplicateTxInputs", "ErrBadTxInput", "ErrMissingTx",
       "ErrUnfinalizedTx", "ErrDuplicateTx", "ErrOverwriteTx",
       "ErrImmatureSpend", "ErrDoubleSpend", "ErrSpendTooHigh",
       "ErrBadFees", "ErrTooManySigOps", "ErrFirstTxNotCoinbase",
       "ErrMultipleCoinbases", "ErrBadCoinbaseScriptLen",
       "ErrBadCoinbaseValue", "ErrScriptMalformed", "ErrScriptValidation",
       "ErrExcessiveChainShare", "ErrExcessiveTrailing",
       "ErrInconsistentBlkSize", "ErrInvalidCoinbase", "ErrInvalidTx",
       "ErrInvalidValidateKey", "ErrInvalidAdminTx", "ErrInvalidAdminOp",
       "ErrFeeTooHigh"] ∧
    ∀ e : ErrorCode, errorCodeStringsList.lookup e = none →
      ErrorCode.String e = "Unknown ErrorCode (" ++ toString e.code ++ ")" := by
  constructor
  · decide
  · intro e h
    simp [ErrorCode.String, errorCodeStrings, h]

/-- C4 witness: the value 99 has no table entry and falls through to the
fallback string. -/
theorem errorCode_String_names_witness :
    errorCodeStringsList.lookup ⟨99⟩ = none ∧
      ErrorCode.String ⟨99⟩ = "Unknown ErrorCode (99)" :=
  ⟨by decide, by rw [errorCode_String_names.2 ⟨99⟩ (by decide)]; decide⟩

/-- C5: assertion failures form an error class distinct from rule
violations: the Go type assertion for `RuleError` never matches an
`AssertError` value, and `Error` on `AssertError s` returns exactly
`"assertion failed: "` followed by `s`. -/
theorem assertError_distinct_class :
    (∀ s : String, AssertError.Error s = "assertion failed: " ++ s) ∧
    (∀ a : AssertError, GoError.asRuleError (GoError.assertErr a) = none) :=
  ⟨fun _ => rfl, fun _ => rfl⟩

/-- C10: the name table has an entry for each of the 47 defined constants
(in declaration order), the names are pairwise distinct and non-empty, the
"Unknown ErrorCode" fallback of `ErrorCode.String` is never reached on a
defined constant, and `String` is injective on the defined constants. -/
theorem errorCodeStrings_covers_all_constants :
    errorCodeStringsList.map Prod.fst = definedErrorCodes ∧
    definedErrorCodes.length = 47 ∧
    (errorCodeStringsList.map Prod.snd).Nodup ∧
    (∀ c ∈ definedErrorCodes,
      errorCodeStrings c ≠ "" ∧ ErrorCode.String c = errorCodeStrings c) ∧
    (definedErrorCodes.map ErrorCode.String).Nodup := by
  refine ⟨by decide, by decide, by decide, ?_, by decide⟩
  have hall : definedErrorCodes.all
      (fun c => decide (errorCodeStrings c ≠ "" ∧
        ErrorCode.String c = errorCodeStrings c)) = true := by decide
  intro c hc
  exact of_decide_eq_true (List.all_eq_true.mp hall c hc)

/-- C10 witness: the fallback is not reached at `ErrFeeTooHigh`, the last
defined constant. -/
theorem errorCodeStrings_covers_all_constants_witness :
    errorCodeStrings ErrFeeTooHigh ≠ "" ∧
      ErrorCode.String ErrFeeTooHigh = errorCodeStrings ErrFeeTooHigh :=
  errorCodeStrings_covers_all_constants.2.2.2.1 ErrFeeTooHigh (by decide)

/-- C1: every rejection by `processBlock` returns exactly the `RuleError`
(wrapped as a Go error value) whose `ErrorCode` is the violated rule's
code — never an error of another class — and on a rejection the two
booleans are both `false` and the engine is unchanged, so they carry
meaning only alongside a nil error. -/
theorem processBlock_rejects_with_ruleError (e : Engine) (b : Block) :
    (processBlock e b).2.2.2 =
      (violatedRule e b).map
        (fun c => GoError.ruleErr (ruleError c (rejectDescription c))) ∧
    ((violatedRule e b).isSome = true →
      (processBlock e b).1 = e ∧ (processBlock e b).2.1 = false ∧
        (processBlock e b).2.2.1 = false) := by
  rcases hs : b.structuralViolation with _ | c <;>
    rcases hc : b.contextViolation with _ | c' <;>
      by_cases h1 : b.hash ∈ e.known <;>
        by_cases h2 : b.prevHash ∈ e.known <;>
          simp [processBlock, violatedRule, hs, hc, h1, h2]

/-- C1 witness: a duplicate block is rejected with
`RuleError ErrDuplicateBlock` and the engine and booleans show no
acceptance. -/
theorem processBlock_rejects_with_ruleError_witness :
    (processBlock ⟨[0], []⟩ ⟨0, 0, none, none⟩).2.2.2 =
      some (GoError.ruleErr
        (ruleError ErrDuplicateBlock (rejectDescription ErrDuplicateBlock))) ∧
    (processBlock ⟨[0], []⟩ ⟨0, 0, none, none⟩).1 = ⟨[0], []⟩ :=
  ⟨by rw [(processBlock_rejects_with_ruleError ⟨[0], []⟩ ⟨0, 0, none, none⟩).1]
      decide,
   ((processBlock_rejects_with_ruleError ⟨[0], []⟩ ⟨0, 0, none, none⟩).2
      (by decide)).1⟩

/-- Unfolding `processOrphans` when no orphan's parent is known. -/
theorem processOrphans_succ_none (fuel : Nat) (known : List Nat)
    (orphans : List Block)
    (hf : orphans.find? (fun o => known.contains o.prevHash) = none) :
    processOrphans (fuel + 1) known orphans = (known, orphans) := by
  simp only [processOrphans, hf]

/-- Unfolding `processOrphans` when a context-valid orphan with a known
parent is found: it is promoted. -/
theorem processOrphans_succ_promote (fuel : Nat) (known : List Nat)
    (orphans : List Block) (o : Block)
    (hf : orphans.find? (fun o => known.contains o.prevHash) = some o)
    (hv : o.contextViolation = none) :
    processOrphans (fuel + 1) known orphans =
      processOrphans fuel (o.hash :: known) (orphans.erase o) := by
  simp only [processOrphans, hf, hv]

/-- Unfolding `processOrphans` when a context-invalid orphan with a known
parent is found: it is dropped. -/
theorem processOrphans_succ_drop (fuel : Nat) (known : List Nat)
    (orphans : List Block) (o : Block) (c : ErrorCode)
    (hf : orphans.find? (fun o => known.contains o.prevHash) = some o)
    (hv : o.contextViolation = some c) :
    processOrphans (fuel + 1) known orphans =
      processOrphans fuel known (orphans.erase o) := by
  simp only [processOrphans, hf, hv]

/-- Accepted chain nodes are never removed by orphan processing. -/
theorem processOrphans_known_mono (fuel : Nat) :
    ∀ (known : List Nat) (orphans : List Block) (x : Nat),
      x ∈ known → x ∈ (processOrphans fuel known orphans).1 := by
  induction fuel with
  | zero =>
    intro known orphans x hx
    simpa [processOrphans] using hx
  | succ fuel ih =>
    intro known orphans x hx
    cases hf : orphans.find? (fun o => known.contains o.prevHash) with
    | none =>
      rw [processOrphans_succ_none fuel known orphans hf]
      exact hx
    | some o =>
      cases hv : o.contextViolation with
      | none =>
        rw [processOrphans_succ_promote fuel known orphans o hf hv]
        exact ih _ _ x (List.mem_cons_of_mem _ hx)
      | some c =>
        rw [processOrphans_succ_drop fuel known orphans o c hf hv]
        exact ih _ _ x hx

/-- A context-valid orphan whose parent is among the accepted nodes is
promoted by orphan processing, given enough fuel. -/
theorem processOrphans_promotes (fuel : Nat) :
    ∀ (known : List Nat) (orphans : List Block) (b : Block),
      orphans.length ≤ fuel →
      b ∈ orphans →
      b.contextViolation = none →
      b.prevHash ∈ known →
      b.hash ∈ (processOrphans fuel known orphans).1 := by
  induction fuel with
  | zero =>
    intro known orphans b hlen hb _ _
    rw [List.eq_nil_of_length_eq_zero (Nat.le_zero.mp hlen)] at hb
    cases hb
  | succ fuel ih =>
    intro known orphans b hlen hb hbv hbp
    cases hf : orphans.find? (fun o => known.contains o.prevHash) with
    | none =>
      exact absurd hbp (by simpa using List.find?_eq_none.mp hf b hb)
    | some o =>
      have ho_mem : o ∈ orphans := List.mem_of_find?_eq_some hf
      by_cases heq : o = b
      · subst heq
        rw [processOrphans_succ_promote fuel known orphans o hf hbv]
        exact processOrphans_known_mono fuel _ _ _ (List.mem_cons_self _ _)
      · have hb' : b ∈ orphans.erase o :=
          (List.mem_erase_of_ne fun h => heq h.symm).mpr hb
        have hlen' : (orphans.erase o).length ≤ fuel := by
          rw [List.length_erase_of_mem ho_mem]
          omega
        cases hv : o.contextViolation with
        | none =>
          rw [processOrphans_succ_promote fuel known orphans o hf hv]
          exact ih _ _ b hlen' hb' hbv (List.mem_cons_of_mem _ hbp)
        | some c =>
          rw [processOrphans_succ_drop fuel known orphans o c hf hv]
          exact ih _ _ b hlen' hb' hbv hbp

/-- C6: a structurally valid block presented before its parent is known is
reported with `isOrphan = true` and a nil error and held in the orphan
pool; once the parent is accepted, the orphaned block is automatically
reprocessed through the same pipeline and accepted as a chain node. -/
theorem processBlock_orphan_then_accepted
    (e : Engine) (b p : Block)
    (hdup : b.hash ∉ e.known)
    (hsb : b.structuralViolation = none)
    (hcb : b.contextViolation = none)
    (hparent : b.prevHash ∉ e.known)
    (hlink : b.prevHash = p.hash)
    (hsp : p.structuralViolation = none)
    (hcp : p.contextViolation = none)
    (hpp : p.prevHash ∈ e.known) :
    (processBlock e b).2.2.1 = true ∧ (processBlock e b).2.2.2 = none ∧
    b ∈ (processBlock e b).1.orphans ∧
    b.hash ∈ (processBlock (processBlock e b).1 p).1.known := by
  have he1 : processBlock e b = (⟨e.known, b :: e.orphans⟩, false, true, none) := by
    simp [processBlock, hdup, hsb, hparent]
  have hdp : p.hash ∉ e.known := hlink ▸ hparent
  refine ⟨by rw [he1], by rw [he1], by rw [he1]; exact List.mem_cons_self _ _, ?_⟩
  rw [he1]
  have he2 : processBlock ⟨e.known, b :: e.orphans⟩ p =
      (⟨(processOrphans (b :: e.orphans).length (p.hash :: e.known)
           (b :: e.orphans)).1,
        (processOrphans (b :: e.orphans).length (p.hash :: e.known)
           (b :: e.orphans)).2⟩, true, false, none) := by
    simp [processBlock, hdp, hsp, hcp, hpp]
  rw [he2]
  exact processOrphans_promotes _ _ _ b (Nat.le_refl _) (List.mem_cons_self _ _)
    hcb (by rw [hlink]; exact List.mem_cons_self _ _)

/-- C6 witness: with genesis (hash 0) known, block 2 (child of 1) arrives
first and is orphaned with no error; accepting block 1 promotes it. -/
theorem processBlock_orphan_then_accepted_witness :
    (processBlock ⟨[0], []⟩ ⟨2, 1, none, none⟩).2.2.1 = true ∧
    (processBlock ⟨[0], []⟩ ⟨2, 1, none, none⟩).2.2.2 = none ∧
    (⟨2, 1, none, none⟩ : Block) ∈
      (processBlock ⟨[0], []⟩ ⟨2, 1, none, none⟩).1.orphans ∧
    (⟨2, 1, none, none⟩ : Block).hash ∈
      (processBlock (processBlock ⟨[0], []⟩ ⟨2, 1, none, none⟩).1
        ⟨1, 0, none, none⟩).1.known :=
  processBlock_orphan_then_accepted ⟨[0], []⟩ ⟨2, 1, none, none⟩ ⟨1, 0, none, none⟩
    (by decide) rfl rfl (by decide) rfl rfl rfl (by decide)

/-- C7: at a pinned checkpoint height a differing block hash is rejected
with the checkpoint-mismatch code, whatever the outcome of every other
rule and whatever the cumulative-work comparison says; a fork that
diverges at or before the most recent checkpoint is rejected as
fork-too-old. -/
theorem checkpoint_mismatch_rejected
    (cps : List (Nat × Nat)) (height hash forkHeight : Nat)
    (otherViolation : Option ErrorCode) (hasGreaterWork : Bool) :
    (∀ cph, cps.lookup height = some cph → hash ≠ cph →
      validateWithCheckpoints cps height hash forkHeight otherViolation
        hasGreaterWork = some ErrBadCheckpoint) ∧
    (∀ l, latestCheckpointHeight cps = some l → forkHeight ≤ l →
      (cps.lookup height).all (fun cph => hash == cph) = true →
      validateWithCheckpoints cps height hash forkHeight otherViolation
        hasGreaterWork = some ErrForkTooOld) := by
  constructor
  · intro cph hl hne
    simp [validateWithCheckpoints, hl, hne]
  · intro l hlatest hfork hmatch
    cases hl : cps.lookup height with
    | none => simp [validateWithCheckpoints, hl, hlatest, hfork]
    | some cph =>
      rw [hl] at hmatch
      have : hash = cph := by simpa using hmatch
      simp [validateWithCheckpoints, hl, this, hlatest, hfork]

/-- C7 witness: with the checkpoint list [(5, 100)], a block at height 5
with hash 99 is rejected as checkpoint mismatch even with no other
violation and greater work, and a fork height of 5 (at the most recent
checkpoint) is rejected as fork-too-old at a non-checkpoint height. -/
theorem checkpoint_mismatch_rejected_witness :
    validateWithCheckpoints [(5, 100)] 5 99 3 none true = some ErrBadCheckpoint ∧
    validateWithCheckpoints [(5, 100)] 6 99 5 none true = some ErrForkTooOld :=
  ⟨(checkpoint_mismatch_rejected [(5, 100)] 5 99 3 none true).1 100
      (by decide) (by decide),
   (checkpoint_mismatch_rejected [(5, 100)] 6 99 5 none true).2 5
      (by decide) (by decide) (by decide)⟩

/-- C8: a reorganization attempt that fails is atomic: if any block along
the candidate path fails validation during the replay, the chain-state
store (UTXO set, node index and admin snapshot) is returned exactly as it
was, and the attempt ends in a rejection (a `RuleError`, with
`isOrphan = false`), not in an orphan. -/
theorem reorganize_failed_is_atomic
    (st : ChainState) (detach attach : List BlockData) (c : ErrorCode)
    (h : validatePath (detach.foldl disconnectState st) attach = some c) :
    reorganize st detach attach =
      (st, false, false,
       some (GoError.ruleErr (ruleError c (rejectDescription c)))) := by
  simp [reorganize, h]

/-- C8 witness: a path whose block double-spends aborts the reorg and
leaves the empty store untouched. -/
theorem reorganize_failed_is_atomic_witness :
    reorganize ⟨[], [], ⟨[], [], []⟩⟩ []
        [⟨1, some ErrDoubleSpend, [], [], [], ⟨[], [], []⟩⟩] =
      (⟨[], [], ⟨[], [], []⟩⟩, false, false,
       some (GoError.ruleErr
         (ruleError ErrDoubleSpend (rejectDescription ErrDoubleSpend)))) :=
  reorganize_failed_is_atomic ⟨[], [], ⟨[], [], []⟩⟩ []
    [⟨1, some ErrDoubleSpend, [], [], [], ⟨[], [], []⟩⟩] ErrDoubleSpend
    (by decide)

/-- `List.lookup` only returns pairs of the list. -/
theorem lookup_mem_of_eq_some {β : Type} {l : List (Nat × β)} {k : Nat} {v : β}
    (h : l.lookup k = some v) : (k, v) ∈ l := by
  induction l with
  | nil => simp [List.lookup] at h
  | cons q rest ih =>
    rw [List.lookup] at h
    by_cases hk : k == q.1
    · rw [hk] at h
      simp only [Option.some.injEq] at h
      have : k = q.1 := by simpa using hk
      subst this
      subst h
      exact List.mem_cons_self _ _
    · rw [Bool.not_eq_true] at hk
      rw [hk] at h
      exact List.mem_cons_of_mem _ (ih h)

/-- C9: disconnecting a connected block and reconnecting it restores the
UTXO set (pointwise) and the admin-key-set snapshot to exactly their
values before the disconnect. -/
theorem disconnect_connect_roundtrip (v : ChainView) (b : BlockData)
    (hcreated : ∀ q ∈ b.created, v.utxo q.1 = some q.2)
    (hspent : ∀ q ∈ b.spent, b.created.lookup q.1 = none → v.utxo q.1 = none)
    (hadmin : v.adminKeys = applyAdminOps b.prevAdmin b.adminOps) :
    (∀ op, (connectBlockView (disconnectBlockView v b) b).utxo op = v.utxo op) ∧
    (connectBlockView (disconnectBlockView v b) b).adminKeys = v.adminKeys := by
  constructor
  · intro op
    show (match b.created.lookup op with
      | some entry => some entry
      | none =>
        match b.spent.lookup op with
        | some _ => none
        | none => (disconnectBlockView v b).utxo op) = v.utxo op
    cases hc : b.created.lookup op with
    | some entry =>
      exact (hcreated (op, entry) (lookup_mem_of_eq_some hc)).symm
    | none =>
      cases hs : b.spent.lookup op with
      | some entry =>
        exact (hspent (op, entry) (lookup_mem_of_eq_some hs) hc).symm
      | none =>
        show (match b.created.lookup op with
          | some _ => none
          | none =>
            match b.spent.lookup op with
            | some entry => some entry
            | none => v.utxo op) = v.utxo op
        rw [hc, hs]
  · show applyAdminOps b.prevAdmin b.adminOps = v.adminKeys
    exact hadmin.symm

/-- C9 witness: on `sampleView` and `sampleBlockData`, the round-trip
restores the entry at outpoint 2 and the admin snapshot. -/
theorem disconnect_connect_roundtrip_witness :
    (connectBlockView (disconnectBlockView sampleView sampleBlockData)
        sampleBlockData).utxo 2 = sampleView.utxo 2 ∧
    (connectBlockView (disconnectBlockView sampleView sampleBlockData)
        sampleBlockData).adminKeys = sampleView.adminKeys :=
  ⟨(disconnect_connect_roundtrip sampleView sampleBlockData (by decide)
      (by decide) (by decide)).1 2,
   (disconnect_connect_roundtrip sampleView sampleBlockData (by decide)
      (by decide) (by decide)).2⟩

end blockchain
